import Mathlib

/-!
Shallow embedding of the EarthMC API client (src/index.ts): the sliding-window
rate limiter (`rateLimit`), the retrying request executor (`get`), and the
URL-building endpoint layer (the constructor, `discord`, `nearbyCoord`).

Times are integers (milliseconds, as produced by `Date.now()`); the request
queue is a list of admission timestamps, oldest first.  A call of `rateLimit`
is modelled as a pure function of the queue and the entry time `now`; since
`setTimeout` with a negative delay fires immediately, the suspension realised
by the `await` is `max timeToWait 0` and the call resolves at
`now + max timeToWait 0`.
-/

namespace EarthMC

/-- Pruning pass of `rateLimit` (src/index.ts line 90):
`this.requestQueue = this.requestQueue.filter((req) => req.timestamp + this.windowSize > now)`. -/
def prune (windowSize now : ℤ) (queue : List ℤ) : List ℤ :=
  queue.filter (fun ts => decide (ts + windowSize > now))

/-- One call of `rateLimit` (src/index.ts lines 86-102).  Returns
`(new queue, timeToWait, resolve time)`:
the queue is pruned, then if the pruned length reaches
`maxRequestsPerWindow` the call computes
`timeToWait = queue[0].timestamp + windowSize - now` (the `queue[0]` index is
modelled by `headD 0`; it is in bounds on this branch whenever
`maxRequestsPerWindow ≥ 1`, see `timeToWait_pos`) and suspends for
`max timeToWait 0`; finally `{ timestamp: now }` is pushed — note that the
source pushes the `now` read at entry, not the post-wait time. -/
def rateLimit (maxRequestsPerWindow : ℕ) (windowSize : ℤ) (queue : List ℤ) (now : ℤ) :
    List ℤ × ℤ × ℤ :=
  let pruned := prune windowSize now queue
  if maxRequestsPerWindow ≤ pruned.length then
    let timeToWait := pruned.headD 0 + windowSize - now
    (pruned ++ [now], timeToWait, now + max timeToWait 0)
  else
    (pruned ++ [now], 0, now)

/-- Sequential driver: runs one `rateLimit` call per entry time in `entries`,
threading the queue, and collects the resolve time of each call. -/
def runSeq (Q : ℕ) (W : ℤ) : List ℤ → List ℤ → List ℤ
  | _, [] => []
  | queue, e :: es =>
    let r := rateLimit Q W queue e
    r.2.2 :: runSeq Q W r.1 es

/-- Sequentiality of a list of entry times: each call starts (`Date.now()` is
read) no earlier than the time at which the previous call resolved. -/
def seqValid (Q : ℕ) (W : ℤ) : List ℤ → ℤ → List ℤ → Bool
  | _, _, [] => true
  | queue, t, e :: es =>
    let r := rateLimit Q W queue e
    decide (t ≤ e) && seqValid Q W r.1 r.2.2 es

/-- Number of admission times falling in the half-open trailing window
`(t, t + W]` — the same convention the pruning predicate uses. -/
def countWindow (t W : ℤ) (xs : List ℤ) : ℕ :=
  (xs.filter (fun a => decide (t < a ∧ a ≤ t + W))).length

/-- Claim C1 (code bug witness): with quota 1 and window 1000 ms, three
sequential `admit()` calls entered at times 0, 0, 1000 resolve at times
0, 1000, 1000: the trailing window `(0, 1000]` contains two admissions,
violating the documented invariant "at most Q admissions in any trailing
window W" even under single-caller sequential use.  The cause is that the
queue records the pre-wait entry time instead of the post-wait admission
time, so the delayed second call's record expires too early. -/
theorem rateLimit_quota_violated_seq :
    seqValid 1 1000 [] 0 [0, 0, 1000] = true
    ∧ runSeq 1 1000 [] [0, 0, 1000] = [0, 1000, 1000]
    ∧ 1 < countWindow 0 1000 (runSeq 1 1000 [] [0, 0, 1000]) := by
  refine ⟨by decide, by decide, by decide⟩

/-- Claim C2 counterexample: with W = 1000, quota 1, queue `[0]` (at quota,
oldest surviving record t0 = 0) and `now = 500`, the call suspends 500 ms and
resolves at time 1000, but the record it appends carries timestamp 500 — the
pre-wait entry time — not the post-wait time 1000 the claim requires. -/
theorem rateLimit_pre_wait_timestamp_cex :
    (rateLimit 1 1000 [0] 500).1.getLast? = some 500
    ∧ (rateLimit 1 1000 [0] 500).2.2 = 1000
    ∧ (500 : ℤ) ≠ 1000 := by
  refine ⟨by decide, by decide, by decide⟩

/-- Claim C2 (amended): when the pruned queue is at quota with oldest
surviving record `t0`, the call computes `timeToWait = t0 + W - now`, suspends
for exactly `max (t0 + W - now) 0` (which equals `t0 + W - now`, the value
being positive since `t0` survived pruning), and appends a record whose
timestamp is the pre-wait entry time `now`. -/
theorem rateLimit_wait_exact (Q : ℕ) (W now t0 : ℤ) (queue : List ℤ)
    (hQ : 1 ≤ Q) (hlen : Q ≤ (prune W now queue).length)
    (hhead : (prune W now queue).head? = some t0) :
    (rateLimit Q W queue now).2.1 = t0 + W - now
    ∧ (rateLimit Q W queue now).2.2 - now = max (t0 + W - now) 0
    ∧ max (t0 + W - now) 0 = t0 + W - now
    ∧ (rateLimit Q W queue now).1 = prune W now queue ++ [now] := by
  have hne : prune W now queue ≠ [] := by
    intro h
    rw [h] at hhead
    simp at hhead
  have hmem : t0 ∈ prune W now queue := by
    have := List.mem_of_mem_head? hhead
    exact this
  have hpred : now < t0 + W := by
    have h2 := List.of_mem_filter hmem
    simpa using of_decide_eq_true h2
  have hheadD : (prune W now queue).headD 0 = t0 := by
    cases hp : prune W now queue with
    | nil => exact absurd hp hne
    | cons a l =>
      rw [hp] at hhead
      simp at hhead
      simp [hhead]
  have hmax : max (t0 + W - now) 0 = t0 + W - now := by
    apply max_eq_left
    omega
  have hrl : rateLimit Q W queue now =
      (prune W now queue ++ [now], t0 + W - now, now + max (t0 + W - now) 0) := by
    simp only [rateLimit]
    rw [if_pos hlen, hheadD]
  rw [hrl]
  refine ⟨rfl, ?_, hmax, rfl⟩
  show now + max (t0 + W - now) 0 - now = max (t0 + W - now) 0
  omega

/-- Witness for `rateLimit_wait_exact` at Q = 1, W = 1000, queue = [0],
now = 500. -/
theorem rateLimit_wait_exact_witness :
    (rateLimit 1 1000 [0] 500).2.1 = 0 + 1000 - 500
    ∧ (rateLimit 1 1000 [0] 500).2.2 - 500 = max (0 + 1000 - 500) 0
    ∧ max ((0 : ℤ) + 1000 - 500) 0 = 0 + 1000 - 500
    ∧ (rateLimit 1 1000 [0] 500).1 = prune 1000 500 [0] ++ [500] :=
  rateLimit_wait_exact 1 1000 500 0 [0] (by decide) (by decide) (by decide)

/-- Claim C4: the pruning pass keeps a record if and only if it was in the
queue and satisfies `timestamp + windowSize > now`; counting multiplicity,
records with `timestamp + windowSize ≤ now` are removed entirely and all
others are kept with their multiplicity. -/
theorem prune_mem_count (W now ts : ℤ) (queue : List ℤ) :
    (ts ∈ prune W now queue ↔ ts ∈ queue ∧ ts + W > now)
    ∧ (prune W now queue).count ts = if ts + W > now then queue.count ts else 0 := by
  constructor
  · simp [prune, List.mem_filter]
  · by_cases h : ts + W > now
    · rw [if_pos h]
      exact List.count_filter (by simpa using h)
    · rw [if_neg h]
      rw [List.count_eq_zero]
      intro hmem
      have h2 := List.of_mem_filter hmem
      exact h (by simpa using of_decide_eq_true h2)

/-- Claim C7: whenever the over-quota branch is entered with a positive quota,
the pruned queue is non-empty (so the `queue[0]` access is in bounds) and the
computed `timeToWait` is strictly positive. -/
theorem timeToWait_pos (Q : ℕ) (W now : ℤ) (queue : List ℤ)
    (hQ : 1 ≤ Q) (hlen : Q ≤ (prune W now queue).length) :
    prune W now queue ≠ [] ∧ 0 < (rateLimit Q W queue now).2.1 := by
  have hne : prune W now queue ≠ [] := by
    intro h
    rw [h] at hlen
    simp at hlen
    omega
  refine ⟨hne, ?_⟩
  cases hp : prune W now queue with
  | nil => exact absurd hp hne
  | cons a l =>
    have hmem : a ∈ prune W now queue := by
      rw [hp]
      exact List.mem_cons_self a l
    have hpred : now < a + W := by
      have h2 := List.of_mem_filter hmem
      simpa using of_decide_eq_true h2
    unfold rateLimit
    rw [if_pos hlen]
    simp only [hp, List.headD_cons]
    omega

/-- Witness for `timeToWait_pos` at Q = 1, W = 1000, queue = [0], now = 500. -/
theorem timeToWait_pos_witness :
    prune 1000 500 [0] ≠ [] ∧ 0 < (rateLimit 1 1000 [0] 500).2.1 :=
  timeToWait_pos 1 1000 500 [0] (by decide) (by decide)

/-- URL model: a base (scheme, host and path) plus the ordered list of query
parameters, as built by `new URL(...)` and `url.searchParams.append`. -/
structure UrlState where
  base : String
  params : List (String × String)
deriving DecidableEq

/-- Model of `url.searchParams.append(key, value)`: parameters accumulate at
the end, nothing is removed or replaced. -/
def appendParam (u : UrlState) (key value : String) : UrlState :=
  ⟨u.base, u.params ++ [(key, value)]⟩

/-- Key of the cache-busting query parameter appended on every attempt. -/
def ncp : String := "no-cache-please"

/-- Cache-busting token of src/index.ts line 58,
the template `Date.now()` ++ "~" ++ `Math.random().toPrecision(2)`; the
millisecond clock and the already-rounded random value are supplied as
oracles indexed by attempt number. -/
def bustValue (timeAt : ℕ → ℕ) (randAt : ℕ → String) (k : ℕ) : String :=
  toString (timeAt k) ++ "~" ++ randAt k

/-- The request executor `get` (src/index.ts lines 56-76).  `attempts k` is
the outcome of the k-th network attempt — either a transport-level failure of
type `ε` thrown by `fetch`, or an HTTP status code — and `bust k` is the
cache-busting token generated at attempt k.  Each level appends a fresh
`no-cache-please` parameter to the same URL object, fetches, and on a 504
status with retry budget left recurses on the mutated URL with the budget
decremented; any other status is returned as-is and a thrown error is
rethrown unchanged (`catch (error) { throw error }`).  The result is the list
of URLs actually fetched, in order, together with the final outcome.  The
`await this.rateLimit()` at the top of each call affects timing only, never
the URL or the result, and is modelled separately by `rateLimit`. -/
def get {ε : Type} (attempts : ℕ → Except ε ℕ) (bust : ℕ → String) :
    UrlState → ℕ → ℕ → List UrlState × Except ε ℕ
  | u, k, 0 =>
    let u2 := appendParam u ncp (bust k)
    ([u2], attempts k)
  | u, k, r + 1 =>
    let u2 := appendParam u ncp (bust k)
    match attempts k with
    | Except.error e => ([u2], Except.error e)
    | Except.ok s =>
      if s = 504 then
        let rest := get attempts bust u2 (k + 1) r
        (u2 :: rest.1, rest.2)
      else ([u2], Except.ok s)

/-- Default URL used by `List.getD` when indexing the fetched-URL list. -/
def blankUrl : UrlState := ⟨"", []⟩

/-- Helper for re-indexing the accumulated cache-busting pairs. -/
theorem ncpRange (bust : ℕ → String) (k n : ℕ) :
    (ncp, bust k) :: (List.range n).map (fun i => (ncp, bust (k + 1 + i)))
      = (List.range (n + 1)).map (fun i => (ncp, bust (k + i))) := by
  rw [List.range_succ_eq_map, List.map_cons, List.map_map]
  simp only [Nat.add_zero]
  congr 1
  apply List.map_congr_left
  intro i _
  have h1 : k + 1 + i = k + (i + 1) := by omega
  simp [Function.comp, h1]

/-- Helper: the j-th URL fetched by `get` (0-indexed) carries exactly the
original parameters followed by the `no-cache-please` pairs of attempts
k, ..., k + j, in order. -/
theorem get_fetched_params {ε : Type} (attempts : ℕ → Except ε ℕ) (bust : ℕ → String) :
    ∀ (r : ℕ) (u : UrlState) (k j : ℕ), j < (get attempts bust u k r).1.length →
      ((get attempts bust u k r).1.getD j blankUrl).params
        = u.params ++ (List.range (j + 1)).map (fun i => (ncp, bust (k + i))) := by
  intro r
  induction r with
  | zero =>
    intro u k j hj
    simp only [get, List.length_cons, List.length_nil] at hj
    have hj0 : j = 0 := by omega
    subst hj0
    simp [get, appendParam]
    rfl
  | succ r ih =>
    intro u k j hj
    cases h : attempts k with
    | error e =>
      simp only [get, h, List.length_cons, List.length_nil] at hj
      have hj0 : j = 0 := by omega
      subst hj0
      simp [get, h, appendParam]
      rfl
    | ok s =>
      by_cases hs : s = 504
      · subst hs
        have step : (get attempts bust u k (r + 1)).1
            = appendParam u ncp (bust k)
              :: (get attempts bust (appendParam u ncp (bust k)) (k + 1) r).1 := by
          simp [get, h]
        cases j with
        | zero =>
          rw [step]
          simp [appendParam]
          rfl
        | succ j =>
          have hj2 : j < (get attempts bust (appendParam u ncp (bust k)) (k + 1) r).1.length := by
            have hj' := hj
            rw [step] at hj'
            simp only [List.length_cons] at hj'
            omega
          rw [step]
          simp only [List.getD_cons_succ]
          rw [ih (appendParam u ncp (bust k)) (k + 1) j hj2]
          simp only [appendParam, List.append_assoc]
          congr 1
          rw [List.singleton_append]
          exact ncpRange bust k (j + 1)
      · simp only [get, h, if_neg hs, List.length_cons, List.length_nil] at hj
        have hj0 : j = 0 := by omega
        subst hj0
        simp [get, h, hs, appendParam]
        rfl

/-- Claim C5: if every network attempt yields status 504, `get` with retry
budget r performs exactly r + 1 attempts and returns the last 504 response as
a normal (non-thrown) result; if the first attempt yields any non-504 status,
exactly one attempt is performed and that response is returned. -/
theorem get_retry_bound {ε : Type} (attempts : ℕ → Except ε ℕ) (bust : ℕ → String)
    (u : UrlState) (r : ℕ) :
    ((∀ k, attempts k = Except.ok 504) →
      (get attempts bust u 0 r).1.length = r + 1
      ∧ (get attempts bust u 0 r).2 = Except.ok 504)
    ∧ (∀ s, attempts 0 = Except.ok s → s ≠ 504 →
      (get attempts bust u 0 r).1.length = 1
      ∧ (get attempts bust u 0 r).2 = Except.ok s) := by
  constructor
  · intro hall
    have main : ∀ (r' : ℕ) (u' : UrlState) (k : ℕ),
        (get attempts bust u' k r').1.length = r' + 1
        ∧ (get attempts bust u' k r').2 = Except.ok 504 := by
      intro r'
      induction r' with
      | zero => intro u' k; simp [get, hall k]
      | succ r' ih =>
        intro u' k
        have := ih (appendParam u' ncp (bust k)) (k + 1)
        simp [get, hall k, this.1, this.2]
    exact main r u 0
  · intro s hs hs504
    cases r with
    | zero => simp [get, hs]
    | succ r => simp [get, hs, hs504]

/-- Witness for `get_retry_bound`: with every attempt returning 504 and
budget 3, four attempts are made and the 504 is returned normally; with the
first attempt returning 200, a single attempt is made. -/
theorem get_retry_bound_witness :
    ((get (fun _ => Except.ok 504 : ℕ → Except Unit ℕ) (fun k => toString k)
        ⟨"b", []⟩ 0 3).1.length = 3 + 1
      ∧ (get (fun _ => Except.ok 504 : ℕ → Except Unit ℕ) (fun k => toString k)
        ⟨"b", []⟩ 0 3).2 = Except.ok 504)
    ∧ ((get (fun _ => Except.ok 200 : ℕ → Except Unit ℕ) (fun k => toString k)
        ⟨"b", []⟩ 0 3).1.length = 1
      ∧ (get (fun _ => Except.ok 200 : ℕ → Except Unit ℕ) (fun k => toString k)
        ⟨"b", []⟩ 0 3).2 = Except.ok 200) :=
  ⟨(get_retry_bound (fun _ => Except.ok 504) (fun k => toString k) ⟨"b", []⟩ 3).1
      (fun _ => rfl),
   (get_retry_bound (fun _ => Except.ok 200) (fun k => toString k) ⟨"b", []⟩ 3).2
      200 rfl (by decide)⟩

/-- Claim C6: a transport-level failure on an attempt is propagated to the
caller unchanged — the very same error value, no wrapping — after that single
attempt, with no retry; and a non-504 HTTP status is returned as-is as a
normal result, with no exception raised by this layer. -/
theorem get_error_passthrough {ε : Type} (attempts : ℕ → Except ε ℕ) (bust : ℕ → String)
    (u : UrlState) (r k : ℕ) :
    (∀ e, attempts k = Except.error e →
      get attempts bust u k r = ([appendParam u ncp (bust k)], Except.error e))
    ∧ (∀ s, attempts k = Except.ok s → s ≠ 504 →
      get attempts bust u k r = ([appendParam u ncp (bust k)], Except.ok s)) := by
  constructor
  · intro e he
    cases r with
    | zero => simp [get, he]
    | succ r => simp [get, he]
  · intro s hs hs504
    cases r with
    | zero => simp [get, hs]
    | succ r => simp [get, hs, hs504]

/-- Witness for `get_error_passthrough`: a transport error "dns" on the first
attempt surfaces verbatim after one attempt, and a 404 is returned as a
normal result after one attempt. -/
theorem get_error_passthrough_witness :
    get (fun _ => Except.error "dns" : ℕ → Except String ℕ) (fun k => toString k)
        ⟨"b", []⟩ 0 3
      = ([appendParam ⟨"b", []⟩ ncp (toString 0)], Except.error "dns")
    ∧ get (fun _ => Except.ok 404 : ℕ → Except String ℕ) (fun k => toString k)
        ⟨"b", []⟩ 0 3
      = ([appendParam ⟨"b", []⟩ ncp (toString 0)], Except.ok 404) :=
  ⟨(get_error_passthrough (fun _ => Except.error "dns") (fun k => toString k)
      ⟨"b", []⟩ 3 0).1 "dns" rfl,
   (get_error_passthrough (fun _ => Except.ok 404) (fun k => toString k)
      ⟨"b", []⟩ 3 0).2 404 rfl (by decide)⟩

/-- Attempt oracle for a run that hits one 504 and then succeeds. -/
def oneTimeout : ℕ → Except Unit ℕ :=
  fun k => if k = 0 then Except.ok 504 else Except.ok 200

/-- Clock oracle stuck on a single millisecond — `Date.now()` can return the
same value on two attempts that fall in the same millisecond. -/
def constTime : ℕ → ℕ := fun _ => 5

/-- Random oracle whose two-digit `toPrecision(2)` output repeats. -/
def constRand : ℕ → String := fun _ => "0.50"

/-- Example base URL with no query parameters yet. -/
def url0 : UrlState := ⟨"https://api.earthmc.net/v3/aurora/towns", []⟩

/-- Claim C8 counterexample: a logical call whose first attempt returns 504
performs two network attempts, yet the `no-cache-please` values generated for
the two attempts are identical when the millisecond clock and the rounded
random value repeat — the values are not guaranteed to differ. -/
theorem bust_values_collide_cex :
    (get oneTimeout (bustValue constTime constRand) url0 0 3).1.length = 2
    ∧ bustValue constTime constRand 0 = bustValue constTime constRand 1 := by
  exact ⟨rfl, rfl⟩

/-- Claim C8 (amended): for every logical call performing at least two
network attempts, the attempts' URLs do differ — each attempt carries one
more `no-cache-please` parameter than the one before — but the parameter
values themselves are not guaranteed distinct: they coincide exactly when
both the millisecond timestamp and the rounded random value repeat. -/
theorem get_urls_distinct {ε : Type} (attempts : ℕ → Except ε ℕ) (bust : ℕ → String)
    (u : UrlState) (k r i j : ℕ)
    (hi : i < (get attempts bust u k r).1.length)
    (hj : j < (get attempts bust u k r).1.length)
    (hij : i ≠ j) :
    (get attempts bust u k r).1.getD i blankUrl
      ≠ (get attempts bust u k r).1.getD j blankUrl := by
  intro heq
  have h1 := get_fetched_params attempts bust r u k i hi
  have h2 := get_fetched_params attempts bust r u k j hj
  rw [heq, h2] at h1
  have hlen := congrArg List.length h1
  simp only [List.length_append, List.length_map, List.length_range] at hlen
  omega

/-- Witness for `get_urls_distinct`: in the 504-then-200 run the URLs of the
two attempts differ (even though their cache-bust values coincide, see
`bust_values_collide_cex`). -/
theorem get_urls_distinct_witness :
    (get oneTimeout (bustValue constTime constRand) url0 0 3).1.getD 0 blankUrl
      ≠ (get oneTimeout (bustValue constTime constRand) url0 0 3).1.getD 1 blankUrl :=
  get_urls_distinct oneTimeout (bustValue constTime constRand) url0 0 3 0 1
    (by decide) (by decide) (by decide)

/-- Claim C10: `get` recurses on the same mutated URL object and the
cache-busting step appends without removing earlier parameters, so the j-th
attempt's URL (0-indexed; the (j+1)-st network attempt) carries exactly j + 1
`no-cache-please` parameters, the values of all earlier attempts preserved in
order. -/
theorem get_ncp_accumulation {ε : Type} (attempts : ℕ → Except ε ℕ) (bust : ℕ → String)
    (u : UrlState) (r j : ℕ)
    (hu : ∀ p ∈ u.params, p.1 ≠ ncp)
    (hj : j < (get attempts bust u 0 r).1.length) :
    (((get attempts bust u 0 r).1.getD j blankUrl).params.filter
        (fun p => decide (p.1 = ncp))).map Prod.snd
      = (List.range (j + 1)).map bust
    ∧ (((get attempts bust u 0 r).1.getD j blankUrl).params.filter
        (fun p => decide (p.1 = ncp))).length = j + 1 := by
  have h := get_fetched_params attempts bust r u 0 j hj
  rw [h, List.filter_append]
  have h1 : u.params.filter (fun p => decide (p.1 = ncp)) = [] := by
    rw [List.filter_eq_nil_iff]
    intro p hp
    simpa using hu p hp
  have h2 : ((List.range (j + 1)).map (fun i => (ncp, bust (0 + i)))).filter
      (fun p => decide (p.1 = ncp))
      = (List.range (j + 1)).map (fun i => (ncp, bust (0 + i))) := by
    rw [List.filter_eq_self]
    intro p hp
    rcases List.mem_map.mp hp with ⟨i, _, hpi⟩
    subst hpi
    simp
  rw [h1, h2]
  constructor
  · rw [List.nil_append, List.map_map]
    apply List.map_congr_left
    intro i _
    simp
  · simp

/-- Witness for `get_ncp_accumulation`: in the 504-then-200 run, the second
attempt's URL carries exactly the two cache-bust values, in order. -/
theorem get_ncp_accumulation_witness :
    (((get oneTimeout (bustValue constTime constRand) url0 0 3).1.getD 1 blankUrl).params.filter
        (fun p => decide (p.1 = ncp))).map Prod.snd
      = (List.range 2).map (bustValue constTime constRand)
    ∧ (((get oneTimeout (bustValue constTime constRand) url0 0 3).1.getD 1 blankUrl).params.filter
        (fun p => decide (p.1 = ncp))).length = 2 :=
  get_ncp_accumulation oneTimeout (bustValue constTime constRand) url0 3 1
    (by simp [url0]) (by decide)

/-- The base URL constant of the class (src/index.ts line 9). -/
def BASE_URL : String := "https://api.earthmc.net/v3"

/-- JavaScript's `Number.MAX_SAFE_INTEGER`, the default quota sentinel. -/
def MAX_SAFE_INTEGER : ℕ := 2 ^ 53 - 1

/-- The options object accepted by the constructor (src/index.ts line 44):
`{ server?: string; maxRequestsPerWindow?: number; windowSize?: number }`. -/
structure Options where
  server : Option String
  maxRequestsPerWindow : Option ℕ
  windowSize : Option ℤ

/-- Construction-time state of an `EarthMC` client instance: `serverStr`,
`maxRequestsPerWindow` and `windowSize` (src/index.ts lines 14, 28, 36). -/
structure Client where
  serverStr : String
  maxRequestsPerWindow : ℕ
  windowSize : ℤ
deriving DecidableEq

/-- The constructor (src/index.ts lines 44-48).  `serverStr` is assigned the
literal "aurora" on line 45 — the documented `options.server` value is never
read — while the other two options fall back to their defaults via `??`. -/
def construct (options : Option Options) : Client :=
  ⟨"aurora",
   (options.bind Options.maxRequestsPerWindow).getD MAX_SAFE_INTEGER,
   (options.bind Options.windowSize).getD 300000⟩

/-- The URL built by `discord` (src/index.ts lines 109-116):
`new URL(BASE_URL + "/" + serverStr + "/discord")` with the comma-joined ids
appended as the `query` parameter. -/
def discord (c : Client) (ids : List String) : UrlState :=
  appendParam ⟨BASE_URL ++ "/" ++ c.serverStr ++ "/discord", []⟩
    "query" (String.intercalate "," ids)

/-- Claim C3 (code bug witness): constructing a client with
`{ server: "nova" }` still yields `serverStr = "aurora"`, and the request URL
built by `discord` targets the `/v3/aurora/` partition, not `/v3/nova/` —
the `server` option the constructor documents is ignored. -/
theorem server_option_ignored :
    (construct (some ⟨some "nova", none, none⟩)).serverStr = "aurora"
    ∧ (discord (construct (some ⟨some "nova", none, none⟩)) ["123456789"]).base
        = "https://api.earthmc.net/v3/aurora/discord"
    ∧ ("aurora" : String) ≠ "nova" := by
  exact ⟨rfl, rfl, by decide⟩

/-- The URL built by `nearbyCoord` (src/index.ts lines 219-228): both
coordinates and the radius pass through `Math.round` — JavaScript's half-up
rounding, `⌊x + 1/2⌋`, which is Mathlib's `round` — before `toString` attaches
them as the `x`, `z` and `radius` parameters. -/
def nearbyCoord (c : Client) (coords : ℚ × ℚ) (radius : ℚ) : UrlState :=
  appendParam
    (appendParam
      (appendParam ⟨BASE_URL ++ "/" ++ c.serverStr ++ "/towns", []⟩
        "x" (toString (round coords.1)))
      "z" (toString (round coords.2)))
    "radius" (toString (round radius))

/-- Claim C9: `nearbyCoord([12.6, -3.4], 5.7)` requests with
`x=13, z=-3, radius=6` — each value rounded to the nearest integer. -/
theorem nearbyCoord_rounding :
    nearbyCoord (construct none) (12.6, -3.4) 5.7
      = ⟨"https://api.earthmc.net/v3/aurora/towns",
         [("x", "13"), ("z", "-3"), ("radius", "6")]⟩ := by
  have hx : round (12.6 : ℚ) = 13 := by norm_num [round_eq]
  have hz : round (-3.4 : ℚ) = -3 := by norm_num [round_eq]
  have hr : round (5.7 : ℚ) = 6 := by norm_num [round_eq]
  show appendParam
      (appendParam
        (appendParam ⟨BASE_URL ++ "/" ++ (construct none).serverStr ++ "/towns", []⟩
          "x" (toString (round (12.6 : ℚ))))
        "z" (toString (round (-3.4 : ℚ))))
      "radius" (toString (round (5.7 : ℚ))) = _
  rw [hx, hz, hr]
  decide

end EarthMC
